import Mathlib

/-!
Verification of the kart-racer core: the arcade vehicle motion model
(`client/src/entities/Car.js`, method `Car.update`) and the race-progression
state machine (`client/src/entities/Checkpoint.js`, class `CheckpointSystem`).

Numbers are modelled as real numbers.  JavaScript `performance.now()` reads
are modelled by an explicit `now : ℝ` argument threaded into each operation
that reads the clock.  Nullable numeric fields (`raceStartTime`,
`lastLapTime`, `bestLapTime`) are modelled as `Option ℝ`; JavaScript
truthiness of such a field (`!x`, `x ? a : b`) treats both `null` and `0` as
falsy, which `jsFalsy` captures.
-/

namespace KartRacer

/-- JavaScript falsiness of a nullable number: `null` and `0` are falsy. -/
def jsFalsy (o : Option ℝ) : Prop := o = none ∨ o = some 0

noncomputable instance (o : Option ℝ) : Decidable (jsFalsy o) := by
  unfold jsFalsy; infer_instance

/-- `Math.atan2(y, x)`, modelled as the argument of the complex number
`x + y·i` (range `(-π, π]`, `atan2 0 0 = 0`, matching JavaScript). -/
noncomputable def atan2 (y x : ℝ) : ℝ := Complex.arg (x + y * Complex.I)

/-! ## Vehicle motion model (`Car.js`) -/

/-- The per-tick input struct produced by `InputManager.getInput()`. -/
structure CarInput where
  accelerate : Bool
  brake : Bool
  turnLeft : Bool
  turnRight : Bool

/-- The mutable motion state of `Car`: planar position (`mesh.position.x`,
`mesh.position.z`; `y` is a fixed ground-clearance constant), yaw
(`this.rotation`) and signed scalar speed (`this.currentSpeed`). -/
structure CarState where
  x : ℝ
  z : ℝ
  rotation : ℝ
  currentSpeed : ℝ

namespace CAR_CONFIG

/-- `CAR_CONFIG.maxSpeed` from `utils/constants.js`. -/
def maxSpeed : ℝ := 40

/-- `CAR_CONFIG.acceleration`. -/
def acceleration : ℝ := 30

/-- `CAR_CONFIG.deceleration`. -/
def deceleration : ℝ := 12

/-- `CAR_CONFIG.brakeForce`. -/
def brakeForce : ℝ := 40

/-- `CAR_CONFIG.turnSpeed`. -/
def turnSpeed : ℝ := 1.8

end CAR_CONFIG

namespace Car

/-- `const minSpeedToTurn = 0.5;` in `Car.update`. -/
def minSpeedToTurn : ℝ := 0.5

/-- `const innerRadius = 25 + 2; // track inner + car buffer` in `Car.update`. -/
def innerRadius : ℝ := 25 + 2

/-- `const outerRadius = 45 - 2; // track outer - car buffer` in `Car.update`. -/
def outerRadius : ℝ := 45 - 2

/-- `const turnDirection = (input.turnRight ? 1 : 0) - (input.turnLeft ? 1 : 0);` -/
def turnDirection (input : CarInput) : ℝ :=
  (if input.turnRight then 1 else 0) - (if input.turnLeft then 1 else 0)

/-- The STEERING block of `Car.update`: rotation is only changed when
`Math.abs(this.currentSpeed) > minSpeedToTurn`, the steering direction being
inverted while reversing (`reverseMultiplier = currentSpeed >= 0 ? 1 : -1`). -/
noncomputable def rotationAfter (s : CarState) (input : CarInput) (deltaTime : ℝ) : ℝ :=
  if minSpeedToTurn < |s.currentSpeed| then
    s.rotation + turnDirection input * CAR_CONFIG.turnSpeed *
      (if 0 ≤ s.currentSpeed then 1 else -1) * deltaTime
  else
    s.rotation

/-- The ACCELERATION block of `Car.update`: throttle, brake, or one-sided
friction decay toward zero (`Math.max(0, ...)` / `Math.min(0, ...)`). -/
noncomputable def speedAfterControl (s : CarState) (input : CarInput) (deltaTime : ℝ) : ℝ :=
  if input.accelerate then
    s.currentSpeed + CAR_CONFIG.acceleration * deltaTime
  else if input.brake then
    s.currentSpeed - CAR_CONFIG.brakeForce * deltaTime
  else if 0 < s.currentSpeed then
    max 0 (s.currentSpeed - CAR_CONFIG.deceleration * deltaTime)
  else if s.currentSpeed < 0 then
    min 0 (s.currentSpeed + CAR_CONFIG.deceleration * deltaTime)
  else
    s.currentSpeed

/-- `this.currentSpeed = Math.max(-maxReverse, Math.min(CAR_CONFIG.maxSpeed, currentSpeed));`
with `maxReverse = CAR_CONFIG.maxSpeed * 0.3`. -/
noncomputable def clampSpeed (v : ℝ) : ℝ :=
  max (-(CAR_CONFIG.maxSpeed * 0.3)) (min CAR_CONFIG.maxSpeed v)

/-- `newPos.x = position.x + sin(rotation) * (speed * deltaTime)`. -/
noncomputable def candX (s : CarState) (input : CarInput) (deltaTime : ℝ) : ℝ :=
  s.x + Real.sin (rotationAfter s input deltaTime) *
    (clampSpeed (speedAfterControl s input deltaTime) * deltaTime)

/-- `newPos.z = position.z + cos(rotation) * (speed * deltaTime)`. -/
noncomputable def candZ (s : CarState) (input : CarInput) (deltaTime : ℝ) : ℝ :=
  s.z + Real.cos (rotationAfter s input deltaTime) *
    (clampSpeed (speedAfterControl s input deltaTime) * deltaTime)

/-- `const distFromCenter = Math.sqrt(newPos.x * newPos.x + newPos.z * newPos.z);` -/
noncomputable def candidateDist (s : CarState) (input : CarInput) (deltaTime : ℝ) : ℝ :=
  Real.sqrt (candX s input deltaTime * candX s input deltaTime +
    candZ s input deltaTime * candZ s input deltaTime)

/-- `Car.update(input, deltaTime)`: steering, longitudinal control, speed
clamp, position integration, and the oval-track boundary check with its
bounce response (`this.currentSpeed *= -0.3`, radial clamp at the angle
`Math.atan2(position.x, position.z)` of the PRE-update position). -/
noncomputable def update (s : CarState) (input : CarInput) (deltaTime : ℝ) : CarState :=
  let rotation := rotationAfter s input deltaTime
  let v := clampSpeed (speedAfterControl s input deltaTime)
  let d := candidateDist s input deltaTime
  if innerRadius ≤ d ∧ d ≤ outerRadius then
    { x := candX s input deltaTime, z := candZ s input deltaTime,
      rotation := rotation, currentSpeed := v }
  else
    let angle := atan2 s.x s.z
    let clampedDist := max (innerRadius + 1) (min (outerRadius - 1) d)
    { x := Real.sin angle * clampedDist, z := Real.cos angle * clampedDist,
      rotation := rotation, currentSpeed := v * (-0.3) }

/-- Planar distance of the car from the track center,
`Math.sqrt(x * x + z * z)`. -/
noncomputable def distFromCenter (s : CarState) : ℝ :=
  Real.sqrt (s.x * s.x + s.z * s.z)

/-- A sequence of `Car.update` calls, one per simulation tick. -/
noncomputable def run (s : CarState) (calls : List (CarInput × ℝ)) : CarState :=
  calls.foldl (fun t c => update t c.1 c.2) s

/-- The state used by the spec's wall-bounce scenario: at planar distance
`outerRadius - 0.1 = 42.9` from center, on the positive-`z` axis, heading
radially outward (rotation `0` points along `+z`), at speed `20`. -/
def bounceState : CarState :=
  { x := 0, z := 42.9, rotation := 0, currentSpeed := 20 }

/-- Coasting input: no flag pressed. -/
def coastInput : CarInput :=
  { accelerate := false, brake := false, turnLeft := false, turnRight := false }

end Car

/-! ## Race-progression state machine (`Checkpoint.js`, class `CheckpointSystem`)

Meshes, materials and the checkpoint flash effect are presentation concerns
and are not part of the model; checkpoint geometry is reduced to the planar
`position` and the detection `radius`.  The notification callbacks
(`onLapComplete`, `onRaceFinish`, countdown `onTick`/`onGo`) are modelled as
`Event` values returned alongside the new state. -/

/-- `this.raceState`: one of the strings `'waiting'`, `'countdown'`,
`'racing'`, `'finished'`. -/
inductive RaceState where
  | waiting
  | countdown
  | racing
  | finished
deriving DecidableEq

/-- One entry of `this.checkpoints`: planar gate position and detection
radius (`trackWidth / 2 + 2`). -/
structure Checkpoint where
  position : ℝ × ℝ
  radius : ℝ

instance : Inhabited Checkpoint := ⟨⟨(0, 0), 0⟩⟩

/-- The notifications the tracker hands to the presentation adapter. -/
inductive Event where
  | lapComplete (lap : ℕ) (lapTime : ℝ)
  | raceFinish (totalTime : ℝ) (bestLap : Option ℝ)
  | countdownTick (value : ℕ)
  | countdownGo

/-- The mutable state of `CheckpointSystem`. -/
structure Tracker where
  checkpoints : List Checkpoint
  currentCheckpoint : ℕ
  lapCount : ℕ
  totalLaps : ℕ
  raceStartTime : Option ℝ
  lapTimes : List ℝ
  lastLapTime : Option ℝ
  bestLapTime : Option ℝ
  raceState : RaceState
  countdownValue : ℕ

namespace CheckpointSystem

/-- `createCheckpoints(trackDef)`: four gates on the track centerline at
angles `0, π/2, π, 1.5·π`, each with detection radius `trackWidth / 2 + 2`. -/
noncomputable def createCheckpoints (innerRadius outerRadius : ℝ) : List Checkpoint :=
  let trackWidth := outerRadius - innerRadius
  let centerRadius := (innerRadius + outerRadius) / 2
  [0, Real.pi / 2, Real.pi, Real.pi * 1.5].map fun angle =>
    { position := (Real.cos angle * centerRadius, Real.sin angle * centerRadius),
      radius := trackWidth / 2 + 2 }

/-- The field initialisation in the `CheckpointSystem` constructor. -/
def initTracker (cps : List Checkpoint) : Tracker :=
  { checkpoints := cps
    currentCheckpoint := 0
    lapCount := 0
    totalLaps := 3
    raceStartTime := none
    lapTimes := []
    lastLapTime := none
    bestLapTime := none
    raceState := .waiting
    countdownValue := 3 }

/-- `Vector3.Distance` between two on-ground points (the `y` components are
both zero in every call the tracker makes). -/
noncomputable def dist2 (p q : ℝ × ℝ) : ℝ :=
  Real.sqrt ((p.1 - q.1) * (p.1 - q.1) + (p.2 - q.2) * (p.2 - q.2))

/-- `startCountdown(onTick, onGo)`, synchronous part: enter the countdown
state and rearm the counter; the scheduled ticks are `countdownStep`. -/
def startCountdown (t : Tracker) : Tracker :=
  { t with raceState := .countdown, countdownValue := 3 }

/-- One scheduled `tick()` of the countdown: emit the current counter value
and decrement while positive, otherwise emit `GO`, enter the racing state and
stamp `raceStartTime = performance.now()`. -/
def countdownStep (now : ℝ) (t : Tracker) : Tracker × List Event :=
  if 0 < t.countdownValue then
    ({ t with countdownValue := t.countdownValue - 1 }, [.countdownTick t.countdownValue])
  else
    ({ t with raceState := .racing, raceStartTime := some now }, [.countdownGo])

/-- `canMove()`. -/
def canMove (t : Tracker) : Bool := t.raceState = .racing

/-- `finishRace()`: enter the finished state and emit
`onRaceFinish(performance.now() - raceStartTime, bestLapTime)`. -/
noncomputable def finishRace (now : ℝ) (t : Tracker) : Tracker × List Event :=
  ({ t with raceState := .finished },
    [.raceFinish (now - t.raceStartTime.getD 0) t.bestLapTime])

/-- `completeLap()`: bump the lap counter, rewind the checkpoint index,
record the lap duration `now - (lastLapTime ? lastLapTime : raceStartTime)`,
update the best lap (`!bestLapTime || lapTime < bestLapTime`), emit
`onLapComplete`, and finish the race once `lapCount >= totalLaps`.  A `null`
timestamp entering the subtraction (NaN in JavaScript) is represented by
`Option.getD 0`; it is never reached from a state with a set start time. -/
noncomputable def completeLap (now : ℝ) (t : Tracker) : Tracker × List Event :=
  let t1 := { t with lapCount := t.lapCount + 1, currentCheckpoint := 0 }
  let lapTime :=
    if jsFalsy t1.lastLapTime then now - t1.raceStartTime.getD 0
    else now - t1.lastLapTime.getD 0
  let t2 := { t1 with
    lastLapTime := some now
    lapTimes := t1.lapTimes ++ [lapTime]
    bestLapTime :=
      if jsFalsy t1.bestLapTime ∨ lapTime < t1.bestLapTime.getD 0 then some lapTime
      else t1.bestLapTime }
  if t2.totalLaps ≤ t2.lapCount then
    ((finishRace now t2).1, .lapComplete t2.lapCount lapTime :: (finishRace now t2).2)
  else
    (t2, [.lapComplete t2.lapCount lapTime])

/-- `hitCheckpoint(index)`: ignored unless `index` is the expected
checkpoint; otherwise advance, completing the lap when the index wraps.  The
mesh flash is presentation-only and not modelled. -/
noncomputable def hitCheckpoint (index : ℕ) (now : ℝ) (t : Tracker) : Tracker × List Event :=
  if index ≠ t.currentCheckpoint then (t, [])
  else
    let t1 := { t with currentCheckpoint := t.currentCheckpoint + 1 }
    if t1.checkpoints.length ≤ t1.currentCheckpoint then completeLap now t1
    else (t1, [])

/-- `update(carPosition)`: a no-op outside the racing state or once all laps
are done; otherwise stamp a missing `raceStartTime`, measure the planar
distance to the expected checkpoint and hit it when within its detection
radius. -/
noncomputable def update (now : ℝ) (pos : ℝ × ℝ) (t : Tracker) : Tracker × List Event :=
  if t.raceState ≠ .racing then (t, [])
  else if t.totalLaps ≤ t.lapCount then (t, [])
  else
    let t1 := if jsFalsy t.raceStartTime then { t with raceStartTime := some now } else t
    let target := t1.checkpoints.getD t1.currentCheckpoint default
    if dist2 pos target.position < target.radius then
      hitCheckpoint t1.currentCheckpoint now t1
    else (t1, [])

/-- `getTotalTime()`. -/
noncomputable def getTotalTime (now : ℝ) (t : Tracker) : ℝ :=
  if jsFalsy t.raceStartTime then 0
  else if t.raceState = .finished then t.lapTimes.foldl (· + ·) 0
  else now - t.raceStartTime.getD 0

/-- `reset()`. -/
def reset (t : Tracker) : Tracker :=
  { t with
    currentCheckpoint := 0
    lapCount := 0
    raceStartTime := none
    lapTimes := []
    lastLapTime := none
    bestLapTime := none
    raceState := .waiting
    countdownValue := 3 }

/-- The per-frame driver loop restricted to the tracker: one `update` call
per tick, notifications collected in order. -/
noncomputable def runUpdates (t : Tracker) : List (ℝ × (ℝ × ℝ)) → Tracker × List Event
  | [] => (t, [])
  | (now, pos) :: rest =>
    let s := update now pos t
    let r := runUpdates s.1 rest
    (r.1, s.2 ++ r.2)

/-- Number of `onRaceFinish` notifications in an event trace. -/
def countFinish (evs : List Event) : ℕ :=
  evs.countP fun e => match e with
    | .raceFinish _ _ => true
    | _ => false

/-- The `lapTime` local computed inside `completeLap`. -/
noncomputable def lapTimeOf (now : ℝ) (u : Tracker) : ℝ :=
  if jsFalsy u.lastLapTime then now - u.raceStartTime.getD 0 else now - u.lastLapTime.getD 0

/-- The best-lap update performed inside `completeLap`. -/
noncomputable def bestAfter (now : ℝ) (u : Tracker) : Option ℝ :=
  if jsFalsy u.bestLapTime ∨ lapTimeOf now u < u.bestLapTime.getD 0 then some (lapTimeOf now u)
  else u.bestLapTime

end CheckpointSystem

/-- Inductive invariant of one race session: the tracker entered the racing
state at wall-clock `t0 > 0`, and `τ` bounds every clock value observed so
far.  It records the session facts the finish-event analysis needs. -/
structure SessionInv (t0 τ : ℝ) (t : Tracker) : Prop where
  start : t.raceStartTime = some t0
  t0pos : 0 < t0
  t0le : t0 ≤ τ
  total : t.totalLaps = 3
  stateCases : t.raceState = RaceState.racing ∨ t.raceState = RaceState.finished
  finIff : t.raceState = RaceState.finished ↔ 3 ≤ t.lapCount
  counts : t.lapCount = t.lapTimes.length
  timesPos : ∀ x ∈ t.lapTimes, 0 < x
  lastSpec : (t.lastLapTime = none ∧ t.lapTimes = []) ∨
    (∃ l, t.lastLapTime = some l ∧ t0 < l ∧ l ≤ τ)
  bestSpec : (t.lapTimes = [] ∧ t.bestLapTime = none) ∨
    (∃ m, t.bestLapTime = some m ∧ m ∈ t.lapTimes ∧ ∀ x ∈ t.lapTimes, m ≤ x)

/-- A concrete four-checkpoint geometry (the oval's gates at angles
`0, π/2, π, 1.5·π` with center radius `35` and detection radius `12`),
used by the concrete witnesses. -/
def cps4 : List Checkpoint :=
  [⟨(35, 0), 12⟩, ⟨(0, 35), 12⟩, ⟨(-35, 0), 12⟩, ⟨(0, -35), 12⟩]

/-! C10 machinery: the public operations of `CheckpointSystem` as a single
step relation, to quantify over arbitrary call sequences. -/

/-- One public call to `CheckpointSystem`: `startCountdown()`, a scheduled
countdown `tick()`, `update(pos)`, `hitCheckpoint(i)` or `reset()`. -/
inductive Op where
  | startC
  | tick (now : ℝ)
  | upd (now : ℝ) (pos : ℝ × ℝ)
  | hit (index : ℕ) (now : ℝ)
  | doReset

/-- State reached after one public call (notifications discarded). -/
noncomputable def applyOp (t : Tracker) : Op → Tracker
  | .startC => CheckpointSystem.startCountdown t
  | .tick now => (CheckpointSystem.countdownStep now t).1
  | .upd now pos => (CheckpointSystem.update now pos t).1
  | .hit i now => (CheckpointSystem.hitCheckpoint i now t).1
  | .doReset => CheckpointSystem.reset t

/-! ## Proofs -/

namespace Car

lemma sin_cos_dist (a c : ℝ) (hc : 0 ≤ c) :
    Real.sqrt (Real.sin a * c * (Real.sin a * c) + Real.cos a * c * (Real.cos a * c)) = c := by
  have hsq : Real.sin a * c * (Real.sin a * c) + Real.cos a * c * (Real.cos a * c) = c * c := by
    have h := Real.sin_sq_add_cos_sq a
    nlinarith [h]
  rw [hsq, Real.sqrt_mul_self hc]

lemma update_dist_bounds (s : CarState) (input : CarInput) (deltaTime : ℝ) :
    27 ≤ distFromCenter (update s input deltaTime) ∧
      distFromCenter (update s input deltaTime) ≤ 43 := by
  unfold update
  by_cases h : innerRadius ≤ candidateDist s input deltaTime ∧
      candidateDist s input deltaTime ≤ outerRadius
  · rw [if_pos h]
    have hin : (27 : ℝ) = innerRadius := by norm_num [innerRadius]
    have hout : (43 : ℝ) = outerRadius := by norm_num [outerRadius]
    simpa [distFromCenter, candidateDist, hin, hout] using h
  · rw [if_neg h]
    set d := candidateDist s input deltaTime with hd
    set c := max (innerRadius + 1) (min (outerRadius - 1) d) with hc
    have hc1 : (28 : ℝ) ≤ c := by
      have : innerRadius + 1 ≤ c := le_max_left _ _
      have h28 : (28 : ℝ) = innerRadius + 1 := by norm_num [innerRadius]
      linarith
    have hc2 : c ≤ 42 := by
      have h42 : outerRadius - 1 = (42 : ℝ) := by norm_num [outerRadius]
      have : c ≤ outerRadius - 1 := by
        apply max_le
        · norm_num [innerRadius, outerRadius]
        · exact min_le_left _ _
      linarith
    have hcd : distFromCenter
        { x := Real.sin (atan2 s.x s.z) * c, z := Real.cos (atan2 s.x s.z) * c,
          rotation := rotationAfter s input deltaTime,
          currentSpeed := clampSpeed (speedAfterControl s input deltaTime) * (-0.3) } = c := by
      simpa [distFromCenter] using sin_cos_dist (atan2 s.x s.z) c (by linarith)
    constructor
    · rw [hcd]; linarith
    · rw [hcd]; linarith

end Car


/-- C1: after every `Car.update` call — from any vehicle state, any input
struct and any `deltaTime` — and after every call of any sequence of
`Car.update` calls, the planar distance of the vehicle position from the
track center lies within `[innerRadius + carBuffer, outerRadius - carBuffer]
= [27, 43]`. -/
theorem car_update_stays_on_track :
    (∀ (s : CarState) (input : CarInput) (deltaTime : ℝ),
      27 ≤ Car.distFromCenter (Car.update s input deltaTime) ∧
        Car.distFromCenter (Car.update s input deltaTime) ≤ 43) ∧
    (∀ (s : CarState) (c : CarInput × ℝ) (rest : List (CarInput × ℝ)),
      27 ≤ Car.distFromCenter (Car.run s (c :: rest)) ∧
        Car.distFromCenter (Car.run s (c :: rest)) ≤ 43) := by
  refine ⟨fun s input deltaTime => Car.update_dist_bounds s input deltaTime, ?_⟩
  intro s c rest
  induction rest generalizing s c with
  | nil => simpa [Car.run] using Car.update_dist_bounds s c.1 c.2
  | cons c2 tl ih =>
    have h := ih (Car.update s c.1 c.2) c2
    simpa [Car.run] using h

/-- C8: in every `Car.update` call the heading changes only when
`|currentSpeed| > minSpeedToTurn = 0.5` at the start of the tick, and then by
exactly `turnDirection × turnSpeed × deltaTime`, with the sign inverted while
reversing (`currentSpeed < 0`); in particular with `currentSpeed = 0`,
applying `turnLeft` for any `deltaTime` leaves the heading unchanged. -/
theorem car_update_steering :
    (∀ (s : CarState) (input : CarInput) (deltaTime : ℝ),
      (Car.update s input deltaTime).rotation =
        s.rotation +
          (if Car.minSpeedToTurn < |s.currentSpeed| then
            Car.turnDirection input * CAR_CONFIG.turnSpeed *
              (if 0 ≤ s.currentSpeed then 1 else -1) * deltaTime
          else 0)) ∧
    (∀ (s : CarState) (deltaTime : ℝ),
      (Car.update { s with currentSpeed := 0 }
        { accelerate := false, brake := false, turnLeft := true, turnRight := false }
        deltaTime).rotation = s.rotation) := by
  have hrot : ∀ (s : CarState) (input : CarInput) (deltaTime : ℝ),
      (Car.update s input deltaTime).rotation = Car.rotationAfter s input deltaTime := by
    intro s input deltaTime
    unfold Car.update
    by_cases h : Car.innerRadius ≤ Car.candidateDist s input deltaTime ∧
        Car.candidateDist s input deltaTime ≤ Car.outerRadius
    · rw [if_pos h]
    · rw [if_neg h]
  constructor
  · intro s input deltaTime
    rw [hrot]
    unfold Car.rotationAfter
    by_cases h : Car.minSpeedToTurn < |s.currentSpeed|
    · rw [if_pos h, if_pos h]
    · rw [if_neg h, if_neg h]; ring
  · intro s deltaTime
    rw [hrot]
    unfold Car.rotationAfter
    rw [if_neg]
    norm_num [Car.minSpeedToTurn]

namespace Car

lemma atan2_sin_cos (a c : ℝ) (hc : 0 < c) (ha : a ∈ Set.Ioc (-Real.pi) Real.pi) :
    atan2 (Real.sin a * c) (Real.cos a * c) = a := by
  unfold atan2
  have hz : ((Real.cos a * c : ℝ) : ℂ) + (Real.sin a * c : ℝ) * Complex.I =
      (c : ℝ) * ((Real.cos a : ℝ) + (Real.sin a : ℝ) * Complex.I) := by
    push_cast
    ring
  rw [hz, Complex.arg_real_mul _ hc, Complex.ofReal_cos, Complex.ofReal_sin,
    Complex.arg_cos_add_sin_mul_I ha]

lemma atan2_mem_Ioc (y x : ℝ) : atan2 y x ∈ Set.Ioc (-Real.pi) Real.pi :=
  Complex.arg_mem_Ioc _

lemma atan2_zero_of_nonneg (x : ℝ) (hx : 0 ≤ x) : atan2 0 x = 0 := by
  unfold atan2
  have hz : ((x : ℝ) : ℂ) + ((0 : ℝ) : ℂ) * Complex.I = ((x : ℝ) : ℂ) := by
    push_cast
    ring
  rw [hz, Complex.arg_ofReal_of_nonneg hx]


lemma bounce_rotationAfter : rotationAfter bounceState coastInput 0.1 = 0 := by
  unfold rotationAfter bounceState coastInput turnDirection minSpeedToTurn
  norm_num

lemma bounce_speed : clampSpeed (speedAfterControl bounceState coastInput 0.1) = 18.8 := by
  unfold clampSpeed speedAfterControl bounceState coastInput
  norm_num [CAR_CONFIG.deceleration, CAR_CONFIG.maxSpeed]

lemma bounce_candX : candX bounceState coastInput 0.1 = 0 := by
  unfold candX
  rw [bounce_rotationAfter, bounce_speed]
  simp [bounceState]

lemma bounce_candZ : candZ bounceState coastInput 0.1 = 44.78 := by
  unfold candZ
  rw [bounce_rotationAfter, bounce_speed]
  norm_num [bounceState]

lemma bounce_candidateDist : candidateDist bounceState coastInput 0.1 = 44.78 := by
  unfold candidateDist
  rw [bounce_candX, bounce_candZ]
  rw [show (0 : ℝ) * 0 + 44.78 * 44.78 = 44.78 * 44.78 by ring]
  exact Real.sqrt_mul_self (by norm_num)

lemma bounce_outside :
    ¬ (innerRadius ≤ candidateDist bounceState coastInput 0.1 ∧
      candidateDist bounceState coastInput 0.1 ≤ outerRadius) := by
  rw [bounce_candidateDist]
  norm_num [innerRadius, outerRadius]

end Car


/-- C7: whenever the candidate position of a `Car.update` tick falls outside
the annulus `[innerRadius, outerRadius] = [27, 43]`, the post-tick speed is
`-0.3` times the speed obtained from the acceleration and clamp steps, the
vehicle keeps the planar angle computed from the pre-update position, and its
planar distance from center is the candidate distance clamped into
`[innerRadius + 1, outerRadius - 1] = [28, 42]`; in particular a vehicle just
inside the outer wall (distance `42.9`) moving outward at speed `20` ends a
`deltaTime = 0.1` tick with negative speed and distance `43 - 1 = 42`. -/
theorem car_wall_strike_response :
    (∀ (s : CarState) (input : CarInput) (deltaTime : ℝ),
      ¬ (Car.innerRadius ≤ Car.candidateDist s input deltaTime ∧
          Car.candidateDist s input deltaTime ≤ Car.outerRadius) →
      (Car.update s input deltaTime).currentSpeed =
          -0.3 * Car.clampSpeed (Car.speedAfterControl s input deltaTime) ∧
        KartRacer.atan2 (Car.update s input deltaTime).x (Car.update s input deltaTime).z =
          KartRacer.atan2 s.x s.z ∧
        Car.distFromCenter (Car.update s input deltaTime) =
          max (Car.innerRadius + 1)
            (min (Car.outerRadius - 1) (Car.candidateDist s input deltaTime))) ∧
    ((Car.update Car.bounceState Car.coastInput 0.1).currentSpeed < 0 ∧
      Car.distFromCenter (Car.update Car.bounceState Car.coastInput 0.1) = 43 - 1) := by
  have hmain : ∀ (s : CarState) (input : CarInput) (deltaTime : ℝ),
      ¬ (Car.innerRadius ≤ Car.candidateDist s input deltaTime ∧
          Car.candidateDist s input deltaTime ≤ Car.outerRadius) →
      (Car.update s input deltaTime).currentSpeed =
          -0.3 * Car.clampSpeed (Car.speedAfterControl s input deltaTime) ∧
        KartRacer.atan2 (Car.update s input deltaTime).x (Car.update s input deltaTime).z =
          KartRacer.atan2 s.x s.z ∧
        Car.distFromCenter (Car.update s input deltaTime) =
          max (Car.innerRadius + 1)
            (min (Car.outerRadius - 1) (Car.candidateDist s input deltaTime)) := by
    intro s input deltaTime h
    have hupd : Car.update s input deltaTime =
        { x := Real.sin (KartRacer.atan2 s.x s.z) *
            max (Car.innerRadius + 1)
              (min (Car.outerRadius - 1) (Car.candidateDist s input deltaTime)),
          z := Real.cos (KartRacer.atan2 s.x s.z) *
            max (Car.innerRadius + 1)
              (min (Car.outerRadius - 1) (Car.candidateDist s input deltaTime)),
          rotation := Car.rotationAfter s input deltaTime,
          currentSpeed := Car.clampSpeed (Car.speedAfterControl s input deltaTime) * (-0.3) } := by
      unfold Car.update
      rw [if_neg h]
    set c := max (Car.innerRadius + 1)
      (min (Car.outerRadius - 1) (Car.candidateDist s input deltaTime)) with hcdef
    have hcpos : (0 : ℝ) < c := by
      have : Car.innerRadius + 1 ≤ c := le_max_left _ _
      have h28 : (0 : ℝ) < Car.innerRadius + 1 := by norm_num [Car.innerRadius]
      linarith
    refine ⟨?_, ?_, ?_⟩
    · rw [hupd]; ring
    · rw [hupd]
      exact Car.atan2_sin_cos (KartRacer.atan2 s.x s.z) c hcpos (Car.atan2_mem_Ioc _ _)
    · rw [hupd]
      simpa [Car.distFromCenter] using
        Car.sin_cos_dist (KartRacer.atan2 s.x s.z) c (le_of_lt hcpos)
  refine ⟨hmain, ?_, ?_⟩
  · have h := (hmain Car.bounceState Car.coastInput 0.1 Car.bounce_outside).1
    rw [h, Car.bounce_speed]
    norm_num
  · have h := (hmain Car.bounceState Car.coastInput 0.1 Car.bounce_outside).2.2
    rw [h, Car.bounce_candidateDist]
    norm_num [Car.innerRadius, Car.outerRadius]

/-- Closed witness for `car_wall_strike_response`: its wall-strike hypothesis
is discharged at the concrete scenario state. -/
theorem car_wall_strike_response_witness :
    (Car.update Car.bounceState Car.coastInput 0.1).currentSpeed =
      -0.3 * Car.clampSpeed (Car.speedAfterControl Car.bounceState Car.coastInput 0.1) :=
  (car_wall_strike_response.1 Car.bounceState Car.coastInput 0.1 Car.bounce_outside).1

/-- C5: calling `update` on the tracker in any state other than racing
(waiting, countdown, or finished) is a silent no-op: the state is returned
unchanged and no notification is emitted. -/
theorem tracker_update_outside_racing (t : Tracker) (now : ℝ) (pos : ℝ × ℝ)
    (h : t.raceState ≠ .racing) :
    CheckpointSystem.update now pos t = (t, []) := by
  unfold CheckpointSystem.update
  rw [if_pos h]

/-- Closed witness for `tracker_update_outside_racing` at a freshly
constructed (waiting) tracker. -/
theorem tracker_update_outside_racing_witness :
    CheckpointSystem.update 5 (0, 0) (CheckpointSystem.initTracker []) =
      (CheckpointSystem.initTracker [], []) :=
  tracker_update_outside_racing (CheckpointSystem.initTracker []) 5 (0, 0)
    (by simp [CheckpointSystem.initTracker])

namespace CheckpointSystem

lemma completeLap_fst_currentCheckpoint (now : ℝ) (t : Tracker) :
    (completeLap now t).1.currentCheckpoint = 0 := by
  unfold completeLap finishRace
  dsimp only
  split <;> rfl

end CheckpointSystem

/-- C2: `hitCheckpoint i` with `i` different from the expected checkpoint
index is a no-op that leaves the whole tracker state unchanged and emits
nothing; a successful hit (`i = currentCheckpoint`, from a state whose index
is within the checkpoint list) advances `currentCheckpoint` by exactly one
modulo the checkpoint count, wrapping to `0` through lap completion. -/
theorem hitCheckpoint_sequential (t : Tracker) (i : ℕ) (now : ℝ) :
    (i ≠ t.currentCheckpoint → CheckpointSystem.hitCheckpoint i now t = (t, [])) ∧
    (i = t.currentCheckpoint → t.currentCheckpoint < t.checkpoints.length →
      (CheckpointSystem.hitCheckpoint i now t).1.currentCheckpoint =
        (t.currentCheckpoint + 1) % t.checkpoints.length) := by
  constructor
  · intro h
    unfold CheckpointSystem.hitCheckpoint
    rw [if_pos h]
  · intro h hlt
    unfold CheckpointSystem.hitCheckpoint
    rw [if_neg (by simp [h])]
    by_cases hlen : t.checkpoints.length ≤ t.currentCheckpoint + 1
    · have hexact : t.checkpoints.length = t.currentCheckpoint + 1 :=
        le_antisymm hlen hlt
      rw [if_pos (by simpa using hlen)]
      rw [CheckpointSystem.completeLap_fst_currentCheckpoint]
      rw [hexact, Nat.mod_self]
    · rw [if_neg (by simpa using hlen)]
      have : t.currentCheckpoint + 1 < t.checkpoints.length := lt_of_not_le hlen
      simp [Nat.mod_eq_of_lt this]


/-- Closed witness for `hitCheckpoint_sequential`: both the mismatch and the
successful-hit hypotheses are discharged on a fresh four-checkpoint
tracker. -/
theorem hitCheckpoint_sequential_witness :
    CheckpointSystem.hitCheckpoint 2 7 (CheckpointSystem.initTracker cps4) =
      (CheckpointSystem.initTracker cps4, []) ∧
    (CheckpointSystem.hitCheckpoint 0 7 (CheckpointSystem.initTracker cps4)).1.currentCheckpoint =
      ((CheckpointSystem.initTracker cps4).currentCheckpoint + 1) %
        (CheckpointSystem.initTracker cps4).checkpoints.length :=
  ⟨(hitCheckpoint_sequential (CheckpointSystem.initTracker cps4) 2 7).1
      (by simp [CheckpointSystem.initTracker]),
    (hitCheckpoint_sequential (CheckpointSystem.initTracker cps4) 0 7).2 rfl
      (by simp [CheckpointSystem.initTracker, cps4])⟩

/-- C6: `reset()` from any state (any tracker whose lap target carries its
construction-time value `totalLaps = 3`) restores every `RaceProgress` field
to its construction-time value while leaving the checkpoint geometry
untouched, so a subsequent `startCountdown()` starts from exactly the state
the first race started from. -/
theorem reset_restores (t : Tracker) (h : t.totalLaps = 3) :
    CheckpointSystem.reset t = CheckpointSystem.initTracker t.checkpoints ∧
    (CheckpointSystem.reset t).checkpoints = t.checkpoints ∧
    CheckpointSystem.startCountdown (CheckpointSystem.reset t) =
      CheckpointSystem.startCountdown (CheckpointSystem.initTracker t.checkpoints) := by
  have h1 : CheckpointSystem.reset t = CheckpointSystem.initTracker t.checkpoints := by
    cases t
    simp_all [CheckpointSystem.reset, CheckpointSystem.initTracker]
  exact ⟨h1, by simp [h1, CheckpointSystem.initTracker], by rw [h1]⟩

/-- Closed witness for `reset_restores` on a mid-race tracker. -/
theorem reset_restores_witness :
    CheckpointSystem.reset
        { CheckpointSystem.initTracker cps4 with
          currentCheckpoint := 2, lapCount := 2, raceStartTime := some 1,
          lapTimes := [5, 6], lastLapTime := some 11, bestLapTime := some 5,
          raceState := RaceState.finished, countdownValue := 0 } =
      CheckpointSystem.initTracker cps4 :=
  (reset_restores _ rfl).1

/-- C9: `getTotalTime()` returns the elapsed wall-clock time
`now - raceStartTime` whenever the tracker is racing, and the sum of the
recorded lap times whenever it is finished (for any state whose
`raceStartTime` is set to a nonzero stamp, as every reachable racing or
finished state has); the two code paths genuinely differ: there is a finished
state on which the two formulas disagree. -/
theorem getTotalTime_by_state :
    (∀ (t : Tracker) (now t0 : ℝ), t.raceStartTime = some t0 → t0 ≠ 0 →
      (t.raceState = .racing → CheckpointSystem.getTotalTime now t = now - t0) ∧
      (t.raceState = .finished →
        CheckpointSystem.getTotalTime now t = t.lapTimes.foldl (· + ·) 0)) ∧
    (∃ (t : Tracker) (now t0 : ℝ), t.raceStartTime = some t0 ∧ t0 ≠ 0 ∧
      t.raceState = .finished ∧ CheckpointSystem.getTotalTime now t ≠ now - t0) := by
  constructor
  · intro t now t0 hstart ht0
    have hfalsy : ¬ jsFalsy t.raceStartTime := by
      simp [jsFalsy, hstart, ht0]
    constructor
    · intro hst
      unfold CheckpointSystem.getTotalTime
      rw [if_neg hfalsy, if_neg (by simp [hst]), hstart]
      rfl
    · intro hst
      unfold CheckpointSystem.getTotalTime
      rw [if_neg hfalsy, if_pos hst]
  · refine ⟨{ CheckpointSystem.initTracker [] with
        raceState := RaceState.finished, raceStartTime := some 1, lapTimes := [5] },
      100, 1, rfl, by norm_num, rfl, ?_⟩
    unfold CheckpointSystem.getTotalTime
    rw [if_neg (by simp [jsFalsy]), if_pos rfl]
    norm_num

/-- Closed witness for `getTotalTime_by_state`: its hypotheses are discharged
on a concrete finished tracker. -/
theorem getTotalTime_by_state_witness :
    CheckpointSystem.getTotalTime 100
        { CheckpointSystem.initTracker [] with
          raceState := RaceState.finished, raceStartTime := some 1, lapTimes := [5] } =
      List.foldl (· + ·) 0 [5] :=
  (getTotalTime_by_state.1
    { CheckpointSystem.initTracker [] with
      raceState := RaceState.finished, raceStartTime := some 1, lapTimes := [5] }
    100 1 rfl (by norm_num)).2 rfl


namespace CheckpointSystem

lemma completeLap_preserves_counts (now : ℝ) (t : Tracker)
    (h : t.lapCount = t.lapTimes.length) :
    (completeLap now t).1.lapCount = (completeLap now t).1.lapTimes.length := by
  unfold completeLap finishRace
  dsimp only
  split <;> simp [h]

lemma hitCheckpoint_preserves_counts (i : ℕ) (now : ℝ) (t : Tracker)
    (h : t.lapCount = t.lapTimes.length) :
    (hitCheckpoint i now t).1.lapCount = (hitCheckpoint i now t).1.lapTimes.length := by
  unfold hitCheckpoint
  dsimp only
  split
  · exact h
  · split
    · exact completeLap_preserves_counts now _ h
    · exact h

lemma update_preserves_counts (now : ℝ) (pos : ℝ × ℝ) (t : Tracker)
    (h : t.lapCount = t.lapTimes.length) :
    (update now pos t).1.lapCount = (update now pos t).1.lapTimes.length := by
  unfold update
  by_cases h1 : t.raceState ≠ .racing
  · rw [if_pos h1]; exact h
  · rw [if_neg h1]
    by_cases h2 : t.totalLaps ≤ t.lapCount
    · rw [if_pos h2]; exact h
    · rw [if_neg h2]
      dsimp only
      set t1 := if jsFalsy t.raceStartTime then { t with raceStartTime := some now } else t
        with ht1
      have hc : t1.lapCount = t1.lapTimes.length := by
        rw [ht1]; split <;> simpa
      split
      · exact hitCheckpoint_preserves_counts _ now _ hc
      · exact hc

end CheckpointSystem

lemma applyOp_preserves_counts (t : Tracker) (op : Op)
    (h : t.lapCount = t.lapTimes.length) :
    (applyOp t op).lapCount = (applyOp t op).lapTimes.length := by
  cases op with
  | startC => simpa [applyOp, CheckpointSystem.startCountdown] using h
  | tick now =>
    simp only [applyOp, CheckpointSystem.countdownStep]
    split <;> simpa using h
  | upd now pos => simpa [applyOp] using CheckpointSystem.update_preserves_counts now pos t h
  | hit i now => simpa [applyOp] using CheckpointSystem.hitCheckpoint_preserves_counts i now t h
  | doReset => simp [applyOp, CheckpointSystem.reset]

namespace CheckpointSystem

lemma update_eq_hit (now : ℝ) (pos : ℝ × ℝ) (t : Tracker)
    (hstate : t.raceState = .racing) (hlap : t.lapCount < t.totalLaps)
    (hstart : ¬ jsFalsy t.raceStartTime)
    (hdist : dist2 pos (t.checkpoints.getD t.currentCheckpoint default).position <
      (t.checkpoints.getD t.currentCheckpoint default).radius) :
    update now pos t = hitCheckpoint t.currentCheckpoint now t := by
  unfold update
  rw [if_neg (by simp [hstate]), if_neg (by simpa using hlap)]
  dsimp only
  rw [if_neg hstart, if_pos hdist]

lemma update_eq_miss (now : ℝ) (pos : ℝ × ℝ) (t : Tracker)
    (hstate : t.raceState = .racing) (hlap : t.lapCount < t.totalLaps)
    (hstart : ¬ jsFalsy t.raceStartTime)
    (hdist : ¬ dist2 pos (t.checkpoints.getD t.currentCheckpoint default).position <
      (t.checkpoints.getD t.currentCheckpoint default).radius) :
    update now pos t = (t, []) := by
  unfold update
  rw [if_neg (by simp [hstate]), if_neg (by simpa using hlap)]
  dsimp only
  rw [if_neg hstart, if_neg hdist]

lemma hitCheckpoint_advance (now : ℝ) (t : Tracker)
    (hlt : t.currentCheckpoint + 1 < t.checkpoints.length) :
    hitCheckpoint t.currentCheckpoint now t =
      ({ t with currentCheckpoint := t.currentCheckpoint + 1 }, []) := by
  unfold hitCheckpoint
  rw [if_neg (by simp)]
  dsimp only
  rw [if_neg (by simpa using not_le_of_lt hlt)]

lemma hitCheckpoint_complete (now : ℝ) (t : Tracker)
    (hlen : t.checkpoints.length ≤ t.currentCheckpoint + 1) :
    hitCheckpoint t.currentCheckpoint now t =
      completeLap now { t with currentCheckpoint := t.currentCheckpoint + 1 } := by
  unfold hitCheckpoint
  rw [if_neg (by simp)]
  dsimp only
  rw [if_pos (by simpa using hlen)]

lemma runUpdates_cons (t : Tracker) (c : ℝ × (ℝ × ℝ)) (rest : List (ℝ × (ℝ × ℝ))) :
    runUpdates t (c :: rest) =
      ((runUpdates (update c.1 c.2 t).1 rest).1,
        (update c.1 c.2 t).2 ++ (runUpdates (update c.1 c.2 t).1 rest).2) :=
  rfl

lemma runUpdates_nil (t : Tracker) : runUpdates t [] = (t, []) := rfl

lemma update_hit_advance (now : ℝ) (pos : ℝ × ℝ) (t : Tracker) (k : ℕ)
    (hstate : t.raceState = .racing) (hlap : t.lapCount < t.totalLaps)
    (hstart : ¬ jsFalsy t.raceStartTime)
    (hcp : t.currentCheckpoint = k)
    (hlt : k + 1 < t.checkpoints.length)
    (hdist : dist2 pos (t.checkpoints.getD k default).position <
      (t.checkpoints.getD k default).radius) :
    update now pos t = ({ t with currentCheckpoint := k + 1 }, []) := by
  rw [update_eq_hit now pos t hstate hlap hstart (by rw [hcp]; exact hdist)]
  rw [hitCheckpoint_advance now t (by rw [hcp]; exact hlt)]
  rw [hcp]

lemma update_hit_complete (now : ℝ) (pos : ℝ × ℝ) (t : Tracker) (k : ℕ)
    (hstate : t.raceState = .racing) (hlap : t.lapCount < t.totalLaps)
    (hstart : ¬ jsFalsy t.raceStartTime)
    (hcp : t.currentCheckpoint = k)
    (hge : t.checkpoints.length ≤ k + 1)
    (hdist : dist2 pos (t.checkpoints.getD k default).position <
      (t.checkpoints.getD k default).radius) :
    update now pos t = completeLap now { t with currentCheckpoint := k + 1 } := by
  rw [update_eq_hit now pos t hstate hlap hstart (by rw [hcp]; exact hdist)]
  rw [hitCheckpoint_complete now t (by rw [hcp]; exact hge)]
  rw [hcp]

end CheckpointSystem

/-- C3: from a racing state expecting checkpoint 0 of a four-checkpoint
track, four `update` ticks that pass through the four checkpoint zones in
order complete one lap: `lapCount` grows by exactly one,
`currentCheckpoint` resets to `0`, a lap duration equal to `now` minus the
last lap timestamp (or the race start time when no lap is recorded yet) is
appended to `lapTimes`, and `lastLapTime` becomes the `now` of the
completing tick. -/
theorem lap_completion (t : Tracker) (t0 n0 n1 n2 n3 : ℝ) (p0 p1 p2 p3 : ℝ × ℝ)
    (hstate : t.raceState = .racing)
    (hlap : t.lapCount < t.totalLaps)
    (hcp : t.currentCheckpoint = 0)
    (hlen : t.checkpoints.length = 4)
    (hstart : t.raceStartTime = some t0) (ht0 : t0 ≠ 0)
    (hlast : t.lastLapTime ≠ some 0)
    (h0 : CheckpointSystem.dist2 p0 (t.checkpoints.getD 0 default).position <
      (t.checkpoints.getD 0 default).radius)
    (h1 : CheckpointSystem.dist2 p1 (t.checkpoints.getD 1 default).position <
      (t.checkpoints.getD 1 default).radius)
    (h2 : CheckpointSystem.dist2 p2 (t.checkpoints.getD 2 default).position <
      (t.checkpoints.getD 2 default).radius)
    (h3 : CheckpointSystem.dist2 p3 (t.checkpoints.getD 3 default).position <
      (t.checkpoints.getD 3 default).radius) :
    (CheckpointSystem.runUpdates t [(n0, p0), (n1, p1), (n2, p2), (n3, p3)]).1.lapCount =
        t.lapCount + 1 ∧
      (CheckpointSystem.runUpdates t [(n0, p0), (n1, p1), (n2, p2), (n3, p3)]).1.currentCheckpoint
        = 0 ∧
      (CheckpointSystem.runUpdates t [(n0, p0), (n1, p1), (n2, p2), (n3, p3)]).1.lapTimes =
        t.lapTimes ++ [n3 - t.lastLapTime.getD t0] ∧
      (CheckpointSystem.runUpdates t [(n0, p0), (n1, p1), (n2, p2), (n3, p3)]).1.lastLapTime =
        some n3 := by
  have hfalsy : ¬ jsFalsy t.raceStartTime := by simp [jsFalsy, hstart, ht0]
  -- tick 1: hit checkpoint 0
  have hu0 : CheckpointSystem.update n0 p0 t = ({ t with currentCheckpoint := 1 }, []) :=
    CheckpointSystem.update_hit_advance n0 p0 t 0 hstate hlap hfalsy hcp (by omega) h0
  -- tick 2: hit checkpoint 1
  have hu1 : CheckpointSystem.update n1 p1 { t with currentCheckpoint := 1 } =
      ({ t with currentCheckpoint := 2 }, []) :=
    CheckpointSystem.update_hit_advance n1 p1 { t with currentCheckpoint := 1 } 1
      hstate hlap hfalsy rfl
      (by have e : ({ t with currentCheckpoint := 1 } : Tracker).checkpoints.length = 4 := hlen
          omega)
      h1
  -- tick 3: hit checkpoint 2
  have hu2 : CheckpointSystem.update n2 p2 { t with currentCheckpoint := 2 } =
      ({ t with currentCheckpoint := 3 }, []) :=
    CheckpointSystem.update_hit_advance n2 p2 { t with currentCheckpoint := 2 } 2
      hstate hlap hfalsy rfl
      (by have e : ({ t with currentCheckpoint := 2 } : Tracker).checkpoints.length = 4 := hlen
          omega)
      h2
  -- tick 4: hit checkpoint 3, completing the lap
  have hu3 : CheckpointSystem.update n3 p3 { t with currentCheckpoint := 3 } =
      CheckpointSystem.completeLap n3 { t with currentCheckpoint := 4 } :=
    CheckpointSystem.update_hit_complete n3 p3 { t with currentCheckpoint := 3 } 3
      hstate hlap hfalsy rfl
      (by have e : ({ t with currentCheckpoint := 3 } : Tracker).checkpoints.length = 4 := hlen
          omega)
      h3
  have hrun : (CheckpointSystem.runUpdates t [(n0, p0), (n1, p1), (n2, p2), (n3, p3)]).1 =
      (CheckpointSystem.completeLap n3 { t with currentCheckpoint := 4 }).1 := by
    simp only [CheckpointSystem.runUpdates_cons, CheckpointSystem.runUpdates_nil,
      hu0, hu1, hu2, hu3]
  rw [hrun]
  have hbase : (if jsFalsy ({ t with currentCheckpoint := 4 } : Tracker).lastLapTime then
      n3 - ({ t with currentCheckpoint := 4 } : Tracker).raceStartTime.getD 0
      else n3 - ({ t with currentCheckpoint := 4 } : Tracker).lastLapTime.getD 0) =
      n3 - t.lastLapTime.getD t0 := by
    show (if jsFalsy t.lastLapTime then n3 - t.raceStartTime.getD 0
      else n3 - t.lastLapTime.getD 0) = n3 - t.lastLapTime.getD t0
    rw [hstart]
    cases hl : t.lastLapTime with
    | none => simp [jsFalsy]
    | some l =>
      have hlne : l ≠ 0 := by
        intro hl0
        exact hlast (by rw [hl, hl0])
      simp [jsFalsy, hlne]
  unfold CheckpointSystem.completeLap CheckpointSystem.finishRace
  dsimp only
  rw [hbase]
  split <;> simp

lemma dist2_self (p : ℝ × ℝ) : CheckpointSystem.dist2 p p = 0 := by
  simp [CheckpointSystem.dist2]

/-- Closed witness for `lap_completion`: a racing tracker on the concrete
four-checkpoint geometry, driven through the four gates in order, gains
exactly one lap. -/
theorem lap_completion_witness :
    (CheckpointSystem.runUpdates
        { CheckpointSystem.initTracker cps4 with
          raceState := RaceState.racing, raceStartTime := some 1 }
        [(10, (35, 0)), (20, (0, 35)), (30, (-35, 0)), (40, (0, -35))]).1.lapCount =
      { CheckpointSystem.initTracker cps4 with
        raceState := RaceState.racing, raceStartTime := some 1 }.lapCount + 1 :=
  (lap_completion
    { CheckpointSystem.initTracker cps4 with
      raceState := RaceState.racing, raceStartTime := some 1 }
    1 10 20 30 40 (35, 0) (0, 35) (-35, 0) (0, -35)
    rfl
    (by show (0 : ℕ) < 3; norm_num)
    rfl
    rfl
    rfl
    (by norm_num)
    (by show (none : Option ℝ) ≠ some 0; simp)
    (by show CheckpointSystem.dist2 (35, 0) (35, 0) < 12; rw [dist2_self]; norm_num)
    (by show CheckpointSystem.dist2 (0, 35) (0, 35) < 12; rw [dist2_self]; norm_num)
    (by show CheckpointSystem.dist2 (-35, 0) (-35, 0) < 12; rw [dist2_self]; norm_num)
    (by show CheckpointSystem.dist2 (0, -35) (0, -35) < 12; rw [dist2_self]; norm_num)).1

/-- C10 (implicit invariant): in every reachable tracker state — the fresh
construction and every state produced from it by an arbitrary sequence of
`startCountdown`, countdown ticks, `update`, `hitCheckpoint` and `reset`
calls — `lapCount` equals the number of recorded entries in `lapTimes`. -/
theorem lapCount_eq_lapTimes_length (cps : List Checkpoint) (ops : List Op) :
    (ops.foldl applyOp (CheckpointSystem.initTracker cps)).lapCount =
      (ops.foldl applyOp (CheckpointSystem.initTracker cps)).lapTimes.length := by
  suffices h : ∀ t : Tracker, t.lapCount = t.lapTimes.length →
      (ops.foldl applyOp t).lapCount = (ops.foldl applyOp t).lapTimes.length from
    h _ (by simp [CheckpointSystem.initTracker])
  induction ops with
  | nil => intro t h; simpa using h
  | cons op rest ih =>
    intro t h
    simpa using ih (applyOp t op) (applyOp_preserves_counts t op h)

lemma SessionInv.mono {t0 τ τ2 : ℝ} {t : Tracker} (h : SessionInv t0 τ t) (hle : τ ≤ τ2) :
    SessionInv t0 τ2 t :=
  { start := h.start, t0pos := h.t0pos, t0le := le_trans h.t0le hle, total := h.total,
    stateCases := h.stateCases, finIff := h.finIff, counts := h.counts,
    timesPos := h.timesPos,
    lastSpec := by
      rcases h.lastSpec with hl | ⟨l, hl, h1, h2⟩
      · exact Or.inl hl
      · exact Or.inr ⟨l, hl, h1, le_trans h2 hle⟩,
    bestSpec := h.bestSpec }

lemma SessionInv.withCp {t0 τ : ℝ} {t : Tracker} (h : SessionInv t0 τ t) (k : ℕ) :
    SessionInv t0 τ { t with currentCheckpoint := k } :=
  { start := h.start, t0pos := h.t0pos, t0le := h.t0le, total := h.total,
    stateCases := h.stateCases, finIff := h.finIff, counts := h.counts,
    timesPos := h.timesPos, lastSpec := h.lastSpec, bestSpec := h.bestSpec }

namespace CheckpointSystem

lemma completeLap_eq (now : ℝ) (u : Tracker) :
    completeLap now u =
      if u.totalLaps ≤ u.lapCount + 1 then
        ({ u with
            lapCount := u.lapCount + 1
            currentCheckpoint := 0
            lastLapTime := some now
            lapTimes := u.lapTimes ++ [lapTimeOf now u]
            bestLapTime := bestAfter now u
            raceState := RaceState.finished },
          [Event.lapComplete (u.lapCount + 1) (lapTimeOf now u),
            Event.raceFinish (now - u.raceStartTime.getD 0) (bestAfter now u)])
      else
        ({ u with
            lapCount := u.lapCount + 1
            currentCheckpoint := 0
            lastLapTime := some now
            lapTimes := u.lapTimes ++ [lapTimeOf now u]
            bestLapTime := bestAfter now u },
          [Event.lapComplete (u.lapCount + 1) (lapTimeOf now u)]) := by
  unfold completeLap finishRace lapTimeOf bestAfter
  dsimp only
  split <;> rfl

lemma jsFalsy_none : jsFalsy none := Or.inl rfl

lemma not_jsFalsy_some {x : ℝ} (hx : x ≠ 0) : ¬ jsFalsy (some x) := by
  simp [jsFalsy, hx]

lemma lapTimeOf_pos (n t0 τ : ℝ) (u : Tracker) (hI : SessionInv t0 τ u) (hn : τ < n) :
    0 < CheckpointSystem.lapTimeOf n u := by
  unfold CheckpointSystem.lapTimeOf
  rcases hI.lastSpec with ⟨hnone, _⟩ | ⟨l, hl, hl1, hl2⟩
  · rw [hnone, if_pos jsFalsy_none, hI.start]
    have := hI.t0le
    simp only [Option.getD_some]
    linarith
  · have hlne : l ≠ 0 := by
      intro h0
      rw [h0] at hl1
      linarith [hI.t0pos]
    rw [hl, if_neg (not_jsFalsy_some hlne)]
    simp only [Option.getD_some]
    linarith

lemma bestAfter_min (n t0 τ : ℝ) (u : Tracker) (hI : SessionInv t0 τ u) (_hn : τ < n) :
    ∃ m, CheckpointSystem.bestAfter n u = some m ∧
      m ∈ u.lapTimes ++ [CheckpointSystem.lapTimeOf n u] ∧
      ∀ x ∈ u.lapTimes ++ [CheckpointSystem.lapTimeOf n u], m ≤ x := by
  unfold CheckpointSystem.bestAfter
  rcases hI.bestSpec with ⟨hempty, hbnone⟩ | ⟨m, hbm, hmem, hmin⟩
  · rw [hbnone, if_pos (Or.inl jsFalsy_none)]
    exact ⟨CheckpointSystem.lapTimeOf n u, rfl, by simp [hempty], by simp [hempty]⟩
  · have hmpos : 0 < m := hI.timesPos m hmem
    rw [hbm]
    by_cases hlt : CheckpointSystem.lapTimeOf n u < m
    · have hcond : jsFalsy (some m) ∨
          CheckpointSystem.lapTimeOf n u < (some m).getD 0 := by
        right
        simpa using hlt
      rw [if_pos hcond]
      refine ⟨CheckpointSystem.lapTimeOf n u, rfl, by simp, ?_⟩
      intro x hx
      rcases List.mem_append.mp hx with hx | hx
      · exact le_trans (le_of_lt hlt) (hmin x hx)
      · simp at hx
        rw [hx]
    · have hcond : ¬ (jsFalsy (some m) ∨
          CheckpointSystem.lapTimeOf n u < (some m).getD 0) := by
        push_neg
        exact ⟨not_jsFalsy_some (ne_of_gt hmpos), by simpa using not_lt.mp hlt⟩
      rw [if_neg hcond]
      refine ⟨m, rfl, by simp [hmem], ?_⟩
      intro x hx
      rcases List.mem_append.mp hx with hx | hx
      · exact hmin x hx
      · simp at hx
        rw [hx]
        exact not_lt.mp hlt

lemma completeLap_step (u : Tracker) (t0 τ n : ℝ) (hI : SessionInv t0 τ u) (hn : τ < n)
    (hstate : u.raceState = RaceState.racing) :
    SessionInv t0 n (CheckpointSystem.completeLap n u).1 ∧
    CheckpointSystem.countFinish (CheckpointSystem.completeLap n u).2 =
      (if (CheckpointSystem.completeLap n u).1.raceState = RaceState.finished then 1 else 0) ∧
    (∀ total best, Event.raceFinish total best ∈ (CheckpointSystem.completeLap n u).2 →
      (CheckpointSystem.completeLap n u).1.raceState = RaceState.finished ∧ total = n - t0 ∧
      (CheckpointSystem.completeLap n u).1.lastLapTime = some n ∧
      best = (CheckpointSystem.completeLap n u).1.bestLapTime) := by
  have hLpos := lapTimeOf_pos n t0 τ u hI hn
  have hbest := bestAfter_min n t0 τ u hI hn
  have ht0n : t0 < n := lt_of_le_of_lt hI.t0le hn
  have hcounts : u.lapCount + 1 = (u.lapTimes ++ [CheckpointSystem.lapTimeOf n u]).length := by
    simp [hI.counts]
  have htimesPos : ∀ x ∈ u.lapTimes ++ [CheckpointSystem.lapTimeOf n u], 0 < x := by
    intro x hx
    rcases List.mem_append.mp hx with hx | hx
    · exact hI.timesPos x hx
    · simp at hx
      rw [hx]
      exact hLpos
  rw [CheckpointSystem.completeLap_eq]
  by_cases hfin : u.totalLaps ≤ u.lapCount + 1
  · rw [if_pos hfin]
    rw [hI.total] at hfin
    refine ⟨?_, rfl, ?_⟩
    · exact ⟨hI.start, hI.t0pos, le_of_lt ht0n, hI.total, Or.inr rfl,
        ⟨fun _ => hfin, fun _ => rfl⟩, hcounts, htimesPos,
        Or.inr ⟨n, rfl, ht0n, le_refl n⟩, Or.inr hbest⟩
    · intro total best hmem
      have h1 : total = n - u.raceStartTime.getD 0 ∧
          best = CheckpointSystem.bestAfter n u := by
        simpa using hmem
      refine ⟨rfl, ?_, rfl, h1.2⟩
      rw [h1.1, hI.start]
      rfl
  · rw [if_neg hfin]
    rw [hI.total] at hfin
    have hfinIff : u.raceState = RaceState.finished ↔ 3 ≤ u.lapCount + 1 := by
      constructor
      · intro hc
        rw [hstate] at hc
        exact absurd hc (by simp)
      · intro hc
        exact absurd hc hfin
    refine ⟨?_, ?_, ?_⟩
    · exact ⟨hI.start, hI.t0pos, le_of_lt ht0n, hI.total, Or.inl hstate,
        hfinIff, hcounts, htimesPos,
        Or.inr ⟨n, rfl, ht0n, le_refl n⟩, Or.inr hbest⟩
    · simp [CheckpointSystem.countFinish, hstate]
    · intro total best hmem
      simp only [List.mem_singleton] at hmem
      exact absurd hmem (by simp)

lemma update_not_racing (now : ℝ) (pos : ℝ × ℝ) (t : Tracker)
    (h : t.raceState ≠ .racing) :
    update now pos t = (t, []) := by
  unfold update
  rw [if_pos h]

lemma runUpdates_frozen (calls : List (ℝ × (ℝ × ℝ))) (t : Tracker)
    (h : t.raceState = RaceState.finished) :
    runUpdates t calls = (t, []) := by
  induction calls with
  | nil => rfl
  | cons c rest ih =>
    obtain ⟨n, p⟩ := c
    rw [runUpdates_cons, update_not_racing n p t (by rw [h]; simp)]
    dsimp only
    rw [ih]
    rfl

lemma update_step_inv (t : Tracker) (t0 τ n : ℝ) (pos : ℝ × ℝ)
    (hI : SessionInv t0 τ t) (hn : τ < n) :
    SessionInv t0 n (update n pos t).1 ∧
    countFinish (update n pos t).2 + (if t.raceState = RaceState.finished then 1 else 0) =
      (if (update n pos t).1.raceState = RaceState.finished then 1 else 0) ∧
    (∀ total best, Event.raceFinish total best ∈ (update n pos t).2 →
      (update n pos t).1.raceState = RaceState.finished ∧ total = n - t0 ∧
      (update n pos t).1.lastLapTime = some n ∧ best = (update n pos t).1.bestLapTime) := by
  rcases hI.stateCases with hstate | hstate
  · have hlap : t.lapCount < t.totalLaps := by
      rw [hI.total]
      by_contra hge
      push_neg at hge
      have := hI.finIff.mpr hge
      rw [hstate] at this
      exact absurd this (by simp)
    have hfalsy : ¬ jsFalsy t.raceStartTime := by
      rw [hI.start]
      simp [jsFalsy, ne_of_gt hI.t0pos]
    have hnotfin : (if t.raceState = RaceState.finished then 1 else 0) = 0 := by
      rw [hstate]
      rfl
    by_cases hdist : dist2 pos (t.checkpoints.getD t.currentCheckpoint default).position <
        (t.checkpoints.getD t.currentCheckpoint default).radius
    · rw [update_eq_hit n pos t hstate hlap hfalsy hdist]
      by_cases hlen : t.checkpoints.length ≤ t.currentCheckpoint + 1
      · rw [hitCheckpoint_complete n t hlen]
        have hstep := completeLap_step { t with currentCheckpoint := t.currentCheckpoint + 1 }
          t0 τ n (hI.withCp _) hn hstate
        refine ⟨hstep.1, ?_, hstep.2.2⟩
        rw [hnotfin, Nat.add_zero]
        exact hstep.2.1
      · rw [hitCheckpoint_advance n t (not_le.mp hlen)]
        refine ⟨(hI.mono (le_of_lt hn)).withCp _, ?_, ?_⟩
        · simp [countFinish, hstate]
        · intro total best hmem
          exact absurd hmem (by simp)
    · rw [update_eq_miss n pos t hstate hlap hfalsy hdist]
      refine ⟨hI.mono (le_of_lt hn), by simp [countFinish, hstate], ?_⟩
      intro total best hmem
      exact absurd hmem (by simp)
  · rw [update_not_racing n pos t (by rw [hstate]; simp)]
    refine ⟨hI.mono (le_of_lt hn), by simp [countFinish, hstate], ?_⟩
    intro total best hmem
    exact absurd hmem (by simp)

lemma runUpdates_session (calls : List (ℝ × (ℝ × ℝ))) (t : Tracker) (t0 τ : ℝ)
    (hI : SessionInv t0 τ t) (hchain : List.Chain (· < ·) τ (calls.map Prod.fst)) :
    (∃ τ2, SessionInv t0 τ2 (runUpdates t calls).1) ∧
    countFinish (runUpdates t calls).2 + (if t.raceState = RaceState.finished then 1 else 0) =
      (if (runUpdates t calls).1.raceState = RaceState.finished then 1 else 0) ∧
    (∀ total best, Event.raceFinish total best ∈ (runUpdates t calls).2 →
      (runUpdates t calls).1.raceState = RaceState.finished ∧
      total = (runUpdates t calls).1.lastLapTime.getD 0 - t0 ∧
      best = (runUpdates t calls).1.bestLapTime) := by
  induction calls generalizing t τ with
  | nil =>
    refine ⟨⟨τ, hI⟩, by simp [runUpdates_nil, countFinish], ?_⟩
    intro total best hmem
    rw [runUpdates_nil] at hmem
    exact absurd hmem (by simp)
  | cons c rest ih =>
    obtain ⟨n, p⟩ := c
    rw [List.map_cons, List.chain_cons] at hchain
    obtain ⟨hτn, hchain'⟩ := hchain
    have hstep := update_step_inv t t0 τ n p hI hτn
    have hrest := ih (update n p t).1 n hstep.1 hchain'
    rw [runUpdates_cons]
    dsimp only
    refine ⟨hrest.1, ?_, ?_⟩
    · have hsplit : countFinish ((update n p t).2 ++ (runUpdates (update n p t).1 rest).2) =
          countFinish (update n p t).2 + countFinish (runUpdates (update n p t).1 rest).2 := by
        unfold countFinish
        exact List.countP_append _ _ _
      have h1 := hstep.2.1
      have h2 := hrest.2.1
      omega
    · intro total best hmem
      rcases List.mem_append.mp hmem with hmem | hmem
      · have he := hstep.2.2 total best hmem
        have hfrozen := runUpdates_frozen rest (update n p t).1 he.1
        rw [hfrozen]
        refine ⟨he.1, ?_, he.2.2.2⟩
        rw [he.2.2.1]
        simp only [Option.getD_some]
        exact he.2.1
      · exact hrest.2.2 total best hmem

end CheckpointSystem

/-- C4: over any run of a race session — a tracker that has just entered the
racing state at wall-clock `t0 > 0`, driven by `update` calls at strictly
increasing times — the tracker is in the finished state exactly when
`lapCount` has reached `totalLaps`, the `onRaceFinish` notification is
emitted exactly once over the whole run (and never before the final lap),
carrying `totalTime = now - raceStartTime` for the `now` of the finishing
call (which is the final `lastLapTime`) and carrying `bestLapTime`, which is
a minimum of all recorded lap times. -/
theorem race_finish_once (t : Tracker) (t0 : ℝ) (calls : List (ℝ × (ℝ × ℝ)))
    (hstate : t.raceState = RaceState.racing) (hstart : t.raceStartTime = some t0)
    (ht0 : 0 < t0) (hlap : t.lapCount = 0) (htimes : t.lapTimes = [])
    (hlast : t.lastLapTime = none) (hbest : t.bestLapTime = none) (htot : t.totalLaps = 3)
    (hchain : List.Chain (· < ·) t0 (calls.map Prod.fst)) :
    ((CheckpointSystem.runUpdates t calls).1.raceState = RaceState.finished ↔
      (CheckpointSystem.runUpdates t calls).1.totalLaps ≤
        (CheckpointSystem.runUpdates t calls).1.lapCount) ∧
    CheckpointSystem.countFinish (CheckpointSystem.runUpdates t calls).2 =
      (if (CheckpointSystem.runUpdates t calls).1.raceState = RaceState.finished
        then 1 else 0) ∧
    (∀ total best, Event.raceFinish total best ∈ (CheckpointSystem.runUpdates t calls).2 →
      total = (CheckpointSystem.runUpdates t calls).1.lastLapTime.getD 0 - t0 ∧
      best = (CheckpointSystem.runUpdates t calls).1.bestLapTime ∧
      ∃ m, (CheckpointSystem.runUpdates t calls).1.bestLapTime = some m ∧
        m ∈ (CheckpointSystem.runUpdates t calls).1.lapTimes ∧
        ∀ x ∈ (CheckpointSystem.runUpdates t calls).1.lapTimes, m ≤ x) := by
  have hI : SessionInv t0 t0 t :=
    { start := hstart, t0pos := ht0, t0le := le_refl t0, total := htot,
      stateCases := Or.inl hstate,
      finIff := by
        rw [hstate, hlap]
        constructor
        · intro hc
          exact absurd hc (by simp)
        · intro hc
          exact absurd hc (by simp),
      counts := by rw [hlap, htimes]; rfl,
      timesPos := by rw [htimes]; intro x hx; exact absurd hx (by simp),
      lastSpec := Or.inl ⟨hlast, htimes⟩,
      bestSpec := Or.inl ⟨htimes, hbest⟩ }
  have hrun := CheckpointSystem.runUpdates_session calls t t0 t0 hI hchain
  obtain ⟨⟨τ2, hI2⟩, hcount, hev⟩ := hrun
  refine ⟨?_, ?_, ?_⟩
  · rw [hI2.total]
    exact hI2.finIff
  · rw [← hcount, hstate]
    simp
  · intro total best hmem
    have he := hev total best hmem
    refine ⟨he.2.1, he.2.2, ?_⟩
    have hfin : 3 ≤ (CheckpointSystem.runUpdates t calls).1.lapCount := hI2.finIff.mp he.1
    have hne : (CheckpointSystem.runUpdates t calls).1.lapTimes ≠ [] := by
      intro hnil
      rw [hI2.counts, hnil] at hfin
      simp at hfin
    rcases hI2.bestSpec with ⟨hnil, _⟩ | hspec
    · exact absurd hnil hne
    · exact hspec

/-- Closed witness for `race_finish_once`: a three-call run on a
single-checkpoint geometry (each tick completes a lap) emits the finish
notification exactly once. -/
theorem race_finish_once_witness :
    CheckpointSystem.countFinish
        (CheckpointSystem.runUpdates
          { CheckpointSystem.initTracker [⟨(0, 0), 12⟩] with
            raceState := RaceState.racing, raceStartTime := some 1 }
          [(10, (0, 0)), (20, (0, 0)), (30, (0, 0))]).2 =
      (if (CheckpointSystem.runUpdates
          { CheckpointSystem.initTracker [⟨(0, 0), 12⟩] with
            raceState := RaceState.racing, raceStartTime := some 1 }
          [(10, (0, 0)), (20, (0, 0)), (30, (0, 0))]).1.raceState = RaceState.finished
        then 1 else 0) :=
  (race_finish_once
    { CheckpointSystem.initTracker [⟨(0, 0), 12⟩] with
      raceState := RaceState.racing, raceStartTime := some 1 }
    1 [(10, (0, 0)), (20, (0, 0)), (30, (0, 0))]
    rfl rfl (by norm_num) rfl rfl rfl rfl rfl
    (by simp [List.chain_cons]; norm_num)).2.1

end KartRacer
